import Mathlib

set_option maxRecDepth 16000

/-!
Verification of the Illora Retreats concierge repository
(`services/qa_agent.py` and `dashboard.py`).

The Python code is shallowly embedded:

* JSON values (as produced by Python's `json` module on this repository's
  data files) are the inductive type `Json`; `dumps`/`loads` model
  `json.dump`/`json.load` as an executable printer and parser over the
  file's character content.  Numbers are modelled as integers.
* The file system is a map from paths to optional string contents.
* The third-party retriever and chat-model clients used by
  `ConciergeBot` are function-valued fields of the `ConciergeBot`
  structure returning `Except`, so that "the call raised" is `.error`.
* Streamlit form submissions are modelled as functions from the current
  file-system state (plus the form's field values) to the new state.
-/

namespace Illora

/-! ## JSON values (the data model of the repository's JSON files) -/

inductive Json where
  | null
  | bool (b : Bool)
  | num (n : Int)
  | str (s : String)
  | arr (elems : List Json)
  | obj (fields : List (String × Json))

/-- The opening brace character (written by code point to keep it out of
string literals). -/
def lbrace : Char := Char.ofNat 123

/-- The closing brace character. -/
def rbrace : Char := Char.ofNat 125

/-- The decimal digit character for `d < 10`. -/
def digitChar (d : Nat) : Char :=
  if d = 0 then '0' else if d = 1 then '1' else if d = 2 then '2'
  else if d = 3 then '3' else if d = 4 then '4' else if d = 5 then '5'
  else if d = 6 then '6' else if d = 7 then '7' else if d = 8 then '8'
  else '9'

/-- Decimal digits of `n`, most significant first.  Fuel-based so that it
is structurally recursive (any `fuel > n` is enough). -/
def natCharsAux : Nat → Nat → List Char
  | 0, _ => []
  | fuel + 1, n =>
    if n < 10 then [digitChar n]
    else natCharsAux fuel (n / 10) ++ [digitChar (n % 10)]

def natChars (n : Nat) : List Char := natCharsAux (n + 1) n

/-- The decimal representation of an integer, as `repr` of a Python int
prints it. -/
def intChars (n : Int) : List Char :=
  if n < 0 then '-' :: natChars n.natAbs else natChars n.toNat

/-- JSON string escaping: quote and backslash are escaped with a
backslash, every other character is kept as is. -/
def escList : List Char → List Char
  | [] => []
  | c :: r => if c = '"' ∨ c = '\\' then '\\' :: c :: escList r else c :: escList r

/-- The serialized form of an object key: `"key":`. -/
def keyChars (k : String) : List Char := '"' :: (escList k.data ++ ['"', ':'])

mutual

/-- Serializer for `Json`, modelling `json.dump` (compact separators;
the `indent=2` pretty-printing of the Python call only inserts
whitespace and does not affect any claim). -/
def dumpJson : Json → List Char
  | .num n => intChars n
  | .str s => '"' :: (escList s.data ++ ['"'])
  | .arr xs => '[' :: (dumpElems xs ++ [']'])
  | .obj kvs => lbrace :: (dumpFields kvs ++ [rbrace])
  | .bool true => 't' :: ['r', 'u', 'e']
  | .bool false => 'f' :: ['a', 'l', 's', 'e']
  | .null => 'n' :: ['u', 'l', 'l']

def dumpElems : List Json → List Char
  | [] => []
  | [x] => dumpJson x
  | x :: xs => dumpJson x ++ ',' :: dumpElems xs

def dumpFields : List (String × Json) → List Char
  | [] => []
  | [(k, v)] => keyChars k ++ dumpJson v
  | (k, v) :: kvs => keyChars k ++ (dumpJson v ++ ',' :: dumpFields kvs)

end

/-! Fuel bounds for the parser, measured against the serialized form. -/

mutual

def sizeJ : Json → Nat
  | .null => 1
  | .bool _ => 1
  | .num _ => 1
  | .str _ => 1
  | .arr xs => 1 + sizeElems xs
  | .obj kvs => 1 + sizeFields kvs

def sizeElems : List Json → Nat
  | [] => 1
  | [x] => 1 + sizeJ x
  | x :: xs => 1 + sizeJ x + sizeElems xs

def sizeFields : List (String × Json) → Nat
  | [] => 1
  | [(_, v)] => 1 + sizeJ v
  | (_, v) :: kvs => 1 + sizeJ v + sizeFields kvs

end

/-- Parse the body of a JSON string after the opening quote, undoing
`escList`; returns the decoded characters and the rest of the input. -/
def parseStrRest : List Char → Option (List Char × List Char)
  | [] => none
  | c :: r =>
    if c = '"' then some ([], r)
    else if c = '\\' then
      match r with
      | [] => none
      | c2 :: r2 =>
        match parseStrRest r2 with
        | some (s, rem) => some (c2 :: s, rem)
        | none => none
    else
      match parseStrRest r with
      | some (s, rem) => some (c :: s, rem)
      | none => none

/-- Longest prefix of decimal digits, and the rest. -/
def takeDigits : List Char → List Char × List Char
  | [] => ([], [])
  | c :: r =>
    if c.isDigit then
      let p := takeDigits r
      (c :: p.1, p.2)
    else ([], c :: r)

/-- Value of a digit string, most significant first. -/
def digitsVal (ds : List Char) : Nat :=
  ds.foldl (fun a c => a * 10 + (c.toNat - 48)) 0

mutual

/-- Recursive-descent JSON parser (fuel-based). -/
def parseJ : Nat → List Char → Option (Json × List Char)
  | 0, _ => none
  | _ + 1, [] => none
  | fuel + 1, c :: r =>
    if c = 'n' then
      match r with
      | 'u' :: 'l' :: 'l' :: r2 => some (Json.null, r2)
      | _ => none
    else if c = 't' then
      match r with
      | 'r' :: 'u' :: 'e' :: r2 => some (Json.bool true, r2)
      | _ => none
    else if c = 'f' then
      match r with
      | 'a' :: 'l' :: 's' :: 'e' :: r2 => some (Json.bool false, r2)
      | _ => none
    else if c = '"' then
      match parseStrRest r with
      | some (s, rem) => some (Json.str (String.mk s), rem)
      | none => none
    else if c = '[' then
      match parseElems fuel r with
      | some (xs, rem) => some (Json.arr xs, rem)
      | none => none
    else if c = lbrace then
      match parseFields fuel r with
      | some (kvs, rem) => some (Json.obj kvs, rem)
      | none => none
    else if c = '-' then
      match takeDigits r with
      | ([], _) => none
      | (ds, rem) => some (Json.num (-(digitsVal ds : Int)), rem)
    else if c.isDigit then
      let p := takeDigits (c :: r)
      some (Json.num (digitsVal p.1 : Int), p.2)
    else none

/-- Parse array elements up to and including the closing bracket. -/
def parseElems : Nat → List Char → Option (List Json × List Char)
  | 0, _ => none
  | _ + 1, [] => none
  | fuel + 1, c :: r =>
    if c = ']' then some ([], r)
    else
      match parseJ fuel (c :: r) with
      | none => none
      | some (j, rem) =>
        match rem with
        | [] => none
        | c2 :: r2 =>
          if c2 = ',' then
            match parseElems fuel r2 with
            | some (xs, rem2) => some (j :: xs, rem2)
            | none => none
          else if c2 = ']' then some ([j], r2)
          else none

/-- Parse object fields up to and including the closing brace. -/
def parseFields : Nat → List Char → Option (List (String × Json) × List Char)
  | 0, _ => none
  | _ + 1, [] => none
  | fuel + 1, c :: r =>
    if c = rbrace then some ([], r)
    else if c = '"' then
      match parseStrRest r with
      | none => none
      | some (k, rem) =>
        match rem with
        | ':' :: r2 =>
          match parseJ fuel r2 with
          | none => none
          | some (v, rem2) =>
            match rem2 with
            | [] => none
            | c2 :: r3 =>
              if c2 = ',' then
                match parseFields fuel r3 with
                | some (kvs, rem3) => some ((String.mk k, v) :: kvs, rem3)
                | none => none
              else if c2 = rbrace then some ([(String.mk k, v)], r3)
              else none
        | _ => none
    else none

end

/-- `json.dump`: serialize a value to the file's content string. -/
def dumps (j : Json) : String := String.mk (dumpJson j)

/-- `json.load`: parse a file's content; `none` models a raised
`JSONDecodeError` (any leftover input is also a failure). -/
def loads (s : String) : Option Json :=
  match parseJ (s.data.length + 1) s.data with
  | some (j, []) => some j
  | _ => none

/-! ## Round trip of the JSON codec -/

theorem string_mk_data (s : String) : String.mk s.data = s := rfl

theorem digitChar_isDigit {d : Nat} (h : d < 10) : (digitChar d).isDigit = true := by
  interval_cases d <;> decide

theorem digitChar_toNat {d : Nat} (h : d < 10) : (digitChar d).toNat = 48 + d := by
  interval_cases d <;> decide

theorem isDigit_ne {c t : Char} (h : c.isDigit = true) (ht : t.isDigit = false) :
    c ≠ t := by
  intro e
  rw [e, ht] at h
  exact Bool.noConfusion h

theorem natCharsAux_spec : ∀ fuel n, n < fuel →
    natCharsAux fuel n ≠ [] ∧ (∀ c ∈ natCharsAux fuel n, c.isDigit = true) := by
  intro fuel
  induction fuel with
  | zero => intro n hn; omega
  | succ fuel ih =>
    intro n hn
    by_cases h10 : n < 10
    · refine ⟨by simp [natCharsAux, h10], ?_⟩
      intro c hc
      simp [natCharsAux, h10] at hc
      rw [hc]
      exact digitChar_isDigit h10
    · have hdiv : n / 10 < fuel := by omega
      obtain ⟨hne, hdig⟩ := ih (n / 10) hdiv
      constructor
      · simp [natCharsAux, h10]
      · intro c hc
        simp only [natCharsAux, if_neg h10, List.mem_append, List.mem_singleton] at hc
        rcases hc with hc | hc
        · exact hdig c hc
        · rw [hc]; exact digitChar_isDigit (by omega)

theorem natCharsAux_head : ∀ fuel n, n < fuel →
    ∃ c t, natCharsAux fuel n = c :: t ∧ c.isDigit = true := by
  intro fuel
  induction fuel with
  | zero => intro n hn; omega
  | succ fuel ih =>
    intro n hn
    by_cases h10 : n < 10
    · exact ⟨digitChar n, [], by simp [natCharsAux, h10], digitChar_isDigit h10⟩
    · have hdiv : n / 10 < fuel := by omega
      obtain ⟨c, t, hct, hd⟩ := ih (n / 10) hdiv
      exact ⟨c, t ++ [digitChar (n % 10)], by simp [natCharsAux, h10, hct], hd⟩

theorem natCharsAux_foldl : ∀ fuel n a, n < fuel →
    List.foldl (fun a c => a * 10 + (c.toNat - 48)) a (natCharsAux fuel n) =
      a * 10 ^ (natCharsAux fuel n).length + n := by
  intro fuel
  induction fuel with
  | zero => intro n a hn; omega
  | succ fuel ih =>
    intro n a hn
    by_cases h10 : n < 10
    · simp [natCharsAux, h10, digitChar_toNat h10]
    · have hdiv : n / 10 < fuel := by omega
      simp only [natCharsAux, if_neg h10, List.foldl_append, List.length_append,
        List.foldl_cons, List.foldl_nil, List.length_cons, List.length_nil]
      rw [ih (n / 10) a hdiv, digitChar_toNat (show n % 10 < 10 by omega)]
      have hmod : 48 + n % 10 - 48 = n % 10 := by omega
      rw [hmod, pow_succ]
      have := Nat.div_add_mod n 10
      ring_nf
      omega

theorem natChars_spec (n : Nat) :
    natChars n ≠ [] ∧ ∀ c ∈ natChars n, c.isDigit = true :=
  natCharsAux_spec (n + 1) n (Nat.lt_succ_self n)

theorem natChars_head (n : Nat) :
    ∃ c t, natChars n = c :: t ∧ c.isDigit = true :=
  natCharsAux_head (n + 1) n (Nat.lt_succ_self n)

theorem digitsVal_natChars (n : Nat) : digitsVal (natChars n) = n := by
  unfold digitsVal natChars
  rw [natCharsAux_foldl (n + 1) n 0 (Nat.lt_succ_self n)]
  simp

/-- The next character (if any) is not a digit, so a number just parsed
cannot absorb it. -/
def notDigitStart : List Char → Prop
  | [] => True
  | c :: _ => c.isDigit = false

theorem notDigitStart_cons {c : Char} (h : c.isDigit = false) (r : List Char) :
    notDigitStart (c :: r) := h

theorem takeDigits_append : ∀ ds rest, (∀ c ∈ ds, c.isDigit = true) →
    notDigitStart rest → takeDigits (ds ++ rest) = (ds, rest) := by
  intro ds
  induction ds with
  | nil =>
    intro rest _ hr
    cases rest with
    | nil => rfl
    | cons c r =>
      have : c.isDigit = false := hr
      simp [takeDigits, this]
  | cons c ds ih =>
    intro rest hds hr
    have hc : c.isDigit = true := hds c (List.mem_cons_self c ds)
    have htail : ∀ x ∈ ds, x.isDigit = true := fun x hx => hds x (List.mem_cons_of_mem c hx)
    simp [takeDigits, hc, ih rest htail hr]

theorem parseStrRest_esc : ∀ l rest,
    parseStrRest (escList l ++ '"' :: rest) = some (l, rest) := by
  intro l
  induction l with
  | nil => intro rest; simp [escList, parseStrRest.eq_def]
  | cons c l ih =>
    intro rest
    by_cases hc : c = '"' ∨ c = '\\'
    · simp only [escList, if_pos hc, List.cons_append]
      rw [parseStrRest.eq_def]
      simp [ih rest]
    · push_neg at hc
      simp only [escList, if_neg (by tauto : ¬(c = '"' ∨ c = '\\')), List.cons_append]
      rw [parseStrRest.eq_def]
      simp [hc.1, hc.2, ih rest]

theorem sizeJ_pos : ∀ j, 1 ≤ sizeJ j := by
  intro j
  cases j <;> simp [sizeJ]

theorem sizeElems_pos : ∀ xs, 1 ≤ sizeElems xs := by
  intro xs
  match xs with
  | [] => simp [sizeElems]
  | [x] => simp [sizeElems]
  | x :: y :: t => simp [sizeElems]; omega

theorem sizeFields_pos : ∀ kvs, 1 ≤ sizeFields kvs := by
  intro kvs
  match kvs with
  | [] => simp [sizeFields]
  | [(k, v)] => simp [sizeFields]
  | (k, v) :: kv :: t => simp [sizeFields]; omega

theorem intChars_ne_nil (n : Int) : intChars n ≠ [] := by
  unfold intChars
  by_cases h : n < 0
  · simp [h]
  · simp [h, (natChars_spec n.toNat).1]

theorem dumpJson_head : ∀ j, ∃ c t, dumpJson j = c :: t ∧ c ≠ ']' := by
  intro j
  cases j with
  | null => exact ⟨'n', _, rfl, by decide⟩
  | bool b =>
    cases b
    · exact ⟨'f', _, rfl, by decide⟩
    · exact ⟨'t', _, rfl, by decide⟩
  | num m =>
    by_cases hm : m < 0
    · exact ⟨'-', natChars m.natAbs, by simp [dumpJson, intChars, hm], by decide⟩
    · obtain ⟨c, t, hct, hd⟩ := natChars_head m.toNat
      exact ⟨c, t, by simp [dumpJson, intChars, hm, hct], isDigit_ne hd (by decide)⟩
  | str s => exact ⟨'"', _, rfl, by decide⟩
  | arr xs => exact ⟨'[', _, rfl, by decide⟩
  | obj kvs => exact ⟨lbrace, _, rfl, by decide⟩

theorem size_le_len : ∀ n,
    (∀ j, sizeJ j ≤ n → sizeJ j ≤ (dumpJson j).length) ∧
    (∀ xs, sizeElems xs ≤ n → sizeElems xs ≤ 1 + (dumpElems xs).length) ∧
    (∀ kvs, sizeFields kvs ≤ n → sizeFields kvs ≤ 1 + (dumpFields kvs).length) := by
  intro n
  induction n with
  | zero =>
    refine ⟨fun j h => ?_, fun xs h => ?_, fun kvs h => ?_⟩
    · exact absurd h (by have := sizeJ_pos j; omega)
    · exact absurd h (by have := sizeElems_pos xs; omega)
    · exact absurd h (by have := sizeFields_pos kvs; omega)
  | succ n ih =>
    obtain ⟨ihJ, ihE, ihF⟩ := ih
    refine ⟨fun j h => ?_, fun xs h => ?_, fun kvs h => ?_⟩
    · cases j with
      | null => simp [sizeJ, dumpJson]
      | bool b => cases b <;> simp [sizeJ, dumpJson]
      | num m =>
        have h1 : intChars m ≠ [] := intChars_ne_nil m
        have : 1 ≤ (intChars m).length := by
          cases hi : intChars m with
          | nil => exact absurd hi h1
          | cons c t => simp
        simpa [sizeJ, dumpJson] using this
      | str s => simp [sizeJ, dumpJson]
      | arr xs =>
        have hx : sizeElems xs ≤ n := by
          simp [sizeJ] at h
          omega
        have := ihE xs hx
        simp [sizeJ, dumpJson]
        omega
      | obj kvs =>
        have hx : sizeFields kvs ≤ n := by
          simp [sizeJ] at h
          omega
        have := ihF kvs hx
        simp [sizeJ, dumpJson]
        omega
    · match xs with
      | [] => simp [sizeElems, dumpElems]
      | [x] =>
        have hx : sizeJ x ≤ n := by
          simp [sizeElems] at h
          omega
        have := ihJ x hx
        simp [sizeElems, dumpElems]
        omega
      | x :: y :: t =>
        have hx : sizeJ x ≤ n := by
          have := sizeElems_pos (y :: t)
          simp [sizeElems] at h ⊢
          omega
        have hyt : sizeElems (y :: t) ≤ n := by
          have := sizeJ_pos x
          simp [sizeElems] at h ⊢
          omega
        have h1 := ihJ x hx
        have h2 := ihE (y :: t) hyt
        simp [sizeElems, dumpElems]
        omega
    · match kvs with
      | [] => simp [sizeFields, dumpFields]
      | [(k, v)] =>
        have hv : sizeJ v ≤ n := by
          simp [sizeFields] at h
          omega
        have := ihJ v hv
        simp [sizeFields, dumpFields]
        omega
      | (k, v) :: kv :: t =>
        have hv : sizeJ v ≤ n := by
          have := sizeFields_pos (kv :: t)
          simp [sizeFields] at h ⊢
          omega
        have ht : sizeFields (kv :: t) ≤ n := by
          have := sizeJ_pos v
          simp [sizeFields] at h ⊢
          omega
        have h1 := ihJ v hv
        have h2 := ihF (kv :: t) ht
        simp [sizeFields, dumpFields]
        omega

theorem parse_dump : ∀ fuel,
    (∀ j rest, sizeJ j ≤ fuel → notDigitStart rest →
      parseJ fuel (dumpJson j ++ rest) = some (j, rest)) ∧
    (∀ xs rest, sizeElems xs ≤ fuel →
      parseElems fuel (dumpElems xs ++ ']' :: rest) = some (xs, rest)) ∧
    (∀ kvs rest, sizeFields kvs ≤ fuel →
      parseFields fuel (dumpFields kvs ++ rbrace :: rest) = some (kvs, rest)) := by
  intro fuel
  induction fuel with
  | zero =>
    refine ⟨fun j rest h _ => absurd h ?_, fun xs rest h => absurd h ?_,
      fun kvs rest h => absurd h ?_⟩
    · have := sizeJ_pos j; omega
    · have := sizeElems_pos xs; omega
    · have := sizeFields_pos kvs; omega
  | succ fuel ih =>
    obtain ⟨ihJ, ihE, ihF⟩ := ih
    refine ⟨fun j rest hsz hrest => ?_, fun xs rest hsz => ?_, fun kvs rest hsz => ?_⟩
    · cases j with
      | null =>
        simp only [dumpJson, List.cons_append, List.nil_append]
        rw [parseJ.eq_def]
        simp
      | bool b =>
        cases b <;>
          (simp only [dumpJson, List.cons_append, List.nil_append];
            rw [parseJ.eq_def]; simp)
      | str s =>
        simp only [dumpJson, List.cons_append, List.append_assoc, List.singleton_append]
        rw [parseJ.eq_def]
        simp [parseStrRest_esc, string_mk_data]
      | num m =>
        rcases lt_or_ge m 0 with hm | hm
        · simp only [dumpJson, intChars, if_pos hm, List.cons_append]
          rw [parseJ.eq_def]
          simp only []
          rw [if_pos trivial]
          rw [takeDigits_append (natChars m.natAbs) rest (natChars_spec m.natAbs).2 hrest]
          obtain ⟨c, t, hct, hd⟩ := natChars_head m.natAbs
          rw [hct]
          simp only []
          rw [← hct, digitsVal_natChars]
          have : (-(m.natAbs : Int)) = m := by omega
          rw [this]
          simp
          intro h
          exact absurd h (by decide)
        · obtain ⟨c, t, hct, hd⟩ := natChars_head m.toNat
          simp only [dumpJson, intChars, if_neg (by omega : ¬ m < 0)]
          rw [hct]
          simp only [List.cons_append]
          rw [parseJ.eq_def]
          simp only []
          rw [if_neg (isDigit_ne hd (by decide)), if_neg (isDigit_ne hd (by decide)),
            if_neg (isDigit_ne hd (by decide)), if_neg (isDigit_ne hd (by decide)),
            if_neg (isDigit_ne hd (by decide)), if_neg (isDigit_ne hd (by decide)),
            if_neg (isDigit_ne hd (by decide)), if_pos hd]
          have harr : c :: (t ++ rest) = (c :: t) ++ rest := by simp
          rw [harr, ← hct,
            takeDigits_append (natChars m.toNat) rest (natChars_spec m.toNat).2 hrest]
          simp only [digitsVal_natChars]
          have : ((m.toNat : Nat) : Int) = m := by omega
          rw [this]
      | arr xsJ =>
        have hx : sizeElems xsJ ≤ fuel := by
          simp [sizeJ] at hsz
          omega
        simp only [dumpJson, List.cons_append, List.append_assoc, List.singleton_append]
        rw [parseJ.eq_def]
        simp [ihE xsJ rest hx]
      | obj kvsJ =>
        have hx : sizeFields kvsJ ≤ fuel := by
          simp [sizeJ] at hsz
          omega
        simp only [dumpJson, List.cons_append, List.append_assoc, List.singleton_append]
        rw [parseJ.eq_def]
        simp only []
        rw [if_pos trivial]
        simp only [List.nil_append]
        rw [ihF kvsJ rest hx]
        rw [if_neg (by decide : ¬ lbrace = 'n'), if_neg (by decide : ¬ lbrace = 't'),
          if_neg (by decide : ¬ lbrace = 'f'), if_neg (by decide : ¬ lbrace = '"'),
          if_neg (by decide : ¬ lbrace = '[')]
    · match xs with
      | [] =>
        simp only [dumpElems, List.nil_append]
        rw [parseElems.eq_def]
        simp
      | [x] =>
        obtain ⟨c, ct, hct, hne⟩ := dumpJson_head x
        have hszx : sizeJ x ≤ fuel := by
          simp [sizeElems] at hsz
          omega
        have hJ := ihJ x (']' :: rest) hszx (notDigitStart_cons (by decide) rest)
        simp only [dumpElems]
        rw [hct] at hJ ⊢
        simp only [List.cons_append] at hJ ⊢
        rw [parseElems.eq_def]
        simp only []
        rw [if_neg hne, hJ]
        simp
      | x :: y :: t =>
        obtain ⟨c, ct, hct, hne⟩ := dumpJson_head x
        have hszx : sizeJ x ≤ fuel := by
          have := sizeElems_pos (y :: t)
          simp [sizeElems] at hsz
          omega
        have hszyt : sizeElems (y :: t) ≤ fuel := by
          have := sizeJ_pos x
          simp [sizeElems] at hsz
          omega
        have hJ := ihJ x (',' :: (dumpElems (y :: t) ++ ']' :: rest)) hszx
          (notDigitStart_cons (by decide) _)
        have hE := ihE (y :: t) rest hszyt
        simp only [dumpElems]
        rw [List.append_assoc, hct] at *
        simp only [List.cons_append] at hJ ⊢
        rw [parseElems.eq_def]
        simp only []
        rw [if_neg hne, hJ]
        simp [hE]
    · match kvs with
      | [] =>
        simp only [dumpFields, List.nil_append]
        rw [parseFields.eq_def]
        simp
      | [(k, v)] =>
        have hszv : sizeJ v ≤ fuel := by
          simp [sizeFields] at hsz
          omega
        have hJ := ihJ v (rbrace :: rest) hszv (notDigitStart_cons (by decide) rest)
        simp only [dumpFields, keyChars, List.cons_append, List.append_assoc,
          List.singleton_append]
        rw [parseFields.eq_def]
        simp only []
        rw [if_pos trivial]
        simp only [List.nil_append]
        rw [parseStrRest_esc k.data (':' :: (dumpJson v ++ rbrace :: rest))]
        simp only []
        rw [hJ]
        simp [string_mk_data]
        rw [if_neg (by decide : ¬ ('"' : Char) = rbrace),
          if_neg (by decide : ¬ rbrace = ',')]
      | (k, v) :: kv2 :: t =>
        have hszv : sizeJ v ≤ fuel := by
          have := sizeFields_pos (kv2 :: t)
          simp [sizeFields] at hsz
          omega
        have hszt : sizeFields (kv2 :: t) ≤ fuel := by
          have := sizeJ_pos v
          simp [sizeFields] at hsz
          omega
        have hJ := ihJ v (',' :: (dumpFields (kv2 :: t) ++ rbrace :: rest)) hszv
          (notDigitStart_cons (by decide) _)
        have hF := ihF (kv2 :: t) rest hszt
        simp only [dumpFields, keyChars, List.cons_append, List.append_assoc,
          List.singleton_append]
        rw [parseFields.eq_def]
        simp only []
        rw [if_pos trivial]
        simp only [List.nil_append]
        rw [parseStrRest_esc k.data (':' :: (dumpJson v ++ ',' :: (dumpFields (kv2 :: t) ++ rbrace :: rest)))]
        simp only []
        rw [hJ]
        simp [hF, string_mk_data]
        decide

theorem loads_dumps (j : Json) : loads (dumps j) = some j := by
  unfold loads dumps
  have hlen : sizeJ j ≤ (dumpJson j).length + 1 := by
    have := (size_le_len (sizeJ j)).1 j le_rfl
    omega
  have h := (parse_dump ((dumpJson j).length + 1)).1 j [] hlen trivial
  simp only [List.append_nil] at h
  simp [h]

/-! ## Python string primitives

Implemented over `List Char` so that every operation reduces by `rfl`;
they model the CPython behaviour on the ASCII-ish data this repository
handles (`str.lower`, `str.strip`, `in`, `str.split` on one character). -/

/-- `str.lower` (character-wise, as `Char.toLower`). -/
def pyLower (s : String) : String := String.mk (s.data.map Char.toLower)

/-- `str.strip()` on a character list: drop whitespace on both ends. -/
def listStrip (l : List Char) : List Char :=
  ((l.dropWhile Char.isWhitespace).reverse.dropWhile Char.isWhitespace).reverse

/-- `str.strip()`. -/
def pyStrip (s : String) : String := String.mk (listStrip s.data)

/-- Does `pat` occur as a contiguous run inside `l`? -/
def listIsInfixOf (pat : List Char) : List Char → Bool
  | [] => pat.isPrefixOf []
  | c :: r => pat.isPrefixOf (c :: r) || listIsInfixOf pat r

/-- Python `pat in s`. -/
def strContains (s pat : String) : Bool := listIsInfixOf pat.data s.data

/-- `str.split(sep)` for a one-character separator. -/
def splitCharAux (sep : Char) : List Char → List Char → List (List Char)
  | [], cur => [cur.reverse]
  | c :: r, cur =>
    if c = sep then cur.reverse :: splitCharAux sep r []
    else splitCharAux sep r (c :: cur)

def splitChar (sep : Char) (l : List Char) : List (List Char) := splitCharAux sep l []

/-- The remainder of `l` after the first occurrence of `pat`
(`none` when `pat` does not occur). -/
def afterFirst (pat : List Char) : List Char → Option (List Char)
  | [] => if pat.isPrefixOf ([] : List Char) then some [] else none
  | c :: r =>
    if pat.isPrefixOf (c :: r) then some (List.drop pat.length (c :: r))
    else afterFirst pat r

/-! ## File system state -/

/-- A file system: path to content of the existing files. -/
def FS : Type := String → Option String

/-- Writing (or overwriting) one file. -/
def setFile (fs : FS) (path content : String) : FS :=
  fun p => if p = path then some content else fs p

/-! ## `dashboard.py` helpers -/

/-- `load_json(path, default)`: create the file holding `default` when it
does not exist, then read it back, returning `default` whenever the
content does not parse (the bare `except`).  The `none` inner branch is
unreachable: the file was just created. -/
def load_json (fs : FS) (path : String) (default : Json) : FS × Json :=
  let fs1 : FS := if (fs path).isSome then fs else setFile fs path (dumps default)
  match fs1 path with
  | none => (fs1, default)
  | some content =>
    match loads content with
    | some j => (fs1, j)
    | none => (fs1, default)

/-- `save_json(path, data)`. -/
def save_json (fs : FS) (path : String) (data : Json) : FS := setFile fs path (dumps data)

/-- A pandas `DataFrame` as the dashboard uses it: column names plus
string-valued rows. -/
structure DataFrame where
  cols : List String
  rows : List (List String)

/-- Double every quote character (CSV quoting). -/
def dqChars : List Char → List Char
  | [] => []
  | c :: r => if c = '"' then '"' :: '"' :: dqChars r else c :: dqChars r

/-- Minimal CSV quoting, as `pandas.to_csv` writes a field. -/
def csvQuoteField (f : String) : String :=
  if strContains f "," || strContains f "\"" || strContains f "\n" || strContains f "\r" then
    "\"" ++ String.mk (dqChars f.data) ++ "\""
  else f

def csvLine (fields : List String) : String :=
  String.intercalate "," (fields.map csvQuoteField) ++ "\n"

/-- `DataFrame.to_csv(index=False)`: header line then one line per row. -/
def to_csv (df : DataFrame) : String :=
  csvLine df.cols ++ String.join (df.rows.map csvLine)

/-- One CSV line into fields: a character state machine
(state 0 = unquoted, 1 = inside quotes, 2 = just saw a quote inside a
quoted field, so a following quote is the doubling rule). -/
def csvFieldsAux : List Char → Nat → List Char → List String → List String
  | [], _, cur, acc => acc ++ [String.mk cur.reverse]
  | c :: r, st, cur, acc =>
    if st = 0 then
      if c = ',' then csvFieldsAux r 0 [] (acc ++ [String.mk cur.reverse])
      else if c = '"' then csvFieldsAux r 1 cur acc
      else csvFieldsAux r 0 (c :: cur) acc
    else if st = 1 then
      if c = '"' then csvFieldsAux r 2 cur acc
      else csvFieldsAux r 1 (c :: cur) acc
    else
      if c = '"' then csvFieldsAux r 1 ('"' :: cur) acc
      else if c = ',' then csvFieldsAux r 0 [] (acc ++ [String.mk cur.reverse])
      else csvFieldsAux r 0 (c :: cur) acc

def csvFields (line : List Char) : List String := csvFieldsAux line 0 [] []

/-- `pandas.read_csv`: first non-blank line is the header, every other
non-blank line is a row. -/
def read_csv (content : String) : DataFrame :=
  match (splitChar '\n' content.data).filter (fun l => l ≠ []) with
  | [] => { cols := [], rows := [] }
  | h :: t => { cols := csvFields h, rows := t.map csvFields }

/-- `ensure_csv(path, cols)`: create an empty CSV with the given columns
when the file does not exist, then parse the file. -/
def ensure_csv (fs : FS) (path : String) (cols : List String) : FS × DataFrame :=
  let fs1 : FS := if (fs path).isSome then fs
    else setFile fs path (to_csv { cols := cols, rows := [] })
  match fs1 path with
  | none => (fs1, { cols := [], rows := [] })
  | some content => (fs1, read_csv content)

def QA_CSV : String := "data\\qa_pairs.csv"

def CAMPAIGNS_FILE : String := "data\\campaigns.json"

def DOSDONTS_FILE : String := "data\\dos_donts.json"

/-- The record the campaign form builds (`new_campaign` in the source;
insertion order of the dict keys is kept). -/
def newCampaign (camp_id name desc discount_type : String) (discount_value : Int)
    (start_date end_date : String) (active : Bool) (created_at : String) : Json :=
  Json.obj [("id", Json.str camp_id), ("name", Json.str name),
    ("description", Json.str desc), ("discount_type", Json.str discount_type),
    ("discount_value", Json.num discount_value), ("start_date", Json.str start_date),
    ("end_date", Json.str end_date), ("active", Json.bool active),
    ("created_at", Json.str created_at)]

/-- The `create_campaign` form handler: load the campaigns file, append
the new record, write the whole list back.  `none` models the
`AttributeError` Python raises when the loaded JSON is not a list. -/
def create_campaign_submit (fs : FS) (name desc discount_type : String)
    (discount_value : Int) (start_date end_date : String) (active : Bool)
    (camp_id created_at : String) : Option FS :=
  match load_json fs CAMPAIGNS_FILE (Json.arr []) with
  | (fs1, Json.arr campaigns) =>
    some (save_json fs1 CAMPAIGNS_FILE (Json.arr (campaigns ++
      [newCampaign camp_id name desc discount_type discount_value
        start_date end_date active created_at])))
  | _ => none

/-- The `addqa` form handler: `qa_df.append({question, answer})` then
`to_csv(QA_CSV, index=False)`. -/
def addqa_submit (fs : FS) (q a : String) : FS :=
  match ensure_csv fs QA_CSV ["question", "answer"] with
  | (fs1, qa_df) =>
    setFile fs1 QA_CSV (to_csv { cols := qa_df.cols, rows := qa_df.rows ++ [[q, a]] })

/-- The `add_dos_donts` form handler.  The `Bool` is `true` for the
`st.success` path and `false` for the `st.warning` path; `none` models
the `AttributeError` on appending to a non-list. -/
def add_dos_donts_submit (fs : FS) (do_text dont_text : String) : Option (FS × Bool) :=
  match load_json fs DOSDONTS_FILE (Json.arr []) with
  | (fs1, loaded) =>
    if pyStrip do_text ≠ "" ∨ pyStrip dont_text ≠ "" then
      match loaded with
      | Json.arr dos_donts =>
        some (save_json fs1 DOSDONTS_FILE (Json.arr (dos_donts ++
          [Json.obj [("do", Json.str (pyStrip do_text)),
            ("dont", Json.str (pyStrip dont_text))]])), true)
      | _ => none
    else some (fs1, false)

/-! ## Analytics-tab log parsing -/

/-- One parsed log line (the list
`[timestamp, source, session_id, user_input, response, intent, guest_type]`
the loop appends, as a record). -/
structure LogRow where
  timestamp : String
  source : String
  session_id : String
  user_input : String
  response : String
  intent : String
  guest_type : String

/-- `[part.strip() for part in line.strip().split("|")]`. -/
def splitParts (line : String) : List String :=
  (splitChar '|' (listStrip line.data)).map (fun p => String.mk (listStrip p))

/-- `re.search(r"Intent: (.+)", line)`: the capture is everything after
the first occurrence of `"Intent: "` (the lines of the log file contain
no newline, so greedy `.+` runs to the end); no occurrence, or nothing
after it, means no match, hence `"Unknown"`. -/
def intentOf (line : String) : String :=
  match afterFirst ("Intent: ".data) line.data with
  | none => "Unknown"
  | some captured => if captured = [] then "Unknown" else String.mk captured

/-- The row built from a kept line: fixed positions 0, 3, 4, 5, 6, 7 of
the split parts, plus the regex-extracted intent. -/
def rowOf (line : String) : LogRow :=
  let parts := splitParts line
  { timestamp := parts.getD 0 "", source := parts.getD 3 "",
    session_id := parts.getD 4 "", user_input := parts.getD 5 "",
    response := parts.getD 6 "", intent := intentOf line,
    guest_type := parts.getD 7 "" }

/-- The parsing loop: keep a line when it splits into at least 8 parts,
appending its row to the accumulator (`log_lines.append([...])`). -/
def parseLogAux : List String → List LogRow → List LogRow
  | [], acc => acc
  | line :: rest, acc =>
    if 8 ≤ (splitParts line).length then parseLogAux rest (acc ++ [rowOf line])
    else parseLogAux rest acc

def parseLog (lines : List String) : List LogRow := parseLogAux lines []

/-! ## `qa_agent.py`: the ConciergeBot -/

/-- A retrieved document (only `page_content` is used). -/
structure Doc where
  page_content : String

/-- The object returned by `self.llm.invoke`: `hasContent` models
`hasattr(response, "content")`, `asStr` models `str(response)`. -/
structure LLMResponse where
  hasContent : Bool
  content : String
  asStr : String

/-- One entry of the Do\x27s & Don\x27ts list: a dict with string fields
`"do"` and `"dont"` (`entry.get` defaults a missing key to `""`). -/
structure DosDontEntry where
  doField : String
  dontField : String

/-- The QA agent.  The retriever and chat-model clients are third-party
objects; they are modelled as function fields whose `.error` result is a
raised exception.  The retriever receives the raw Python argument, which
may be `None`. -/
structure ConciergeBot where
  retriever : Option String → Except String (List Doc)
  llm : String → Except String LLMResponse
  dos_donts : List DosDontEntry

def restricted_services : List String :=
  ["wake-up call", "spa", "gym", "pool", "room service", "book a room", "booking"]

def refusalMessage : String :=
  "We\x27re sorry, this service is exclusive to *guests* at ILLORA RETREATS.\nFeel free to explore our dining options, events, and lobby amenities!"

def fallbackMessage : String :=
  "We\x27re sorry, there was an issue while assisting you. Please feel free to ask again or contact the ILLORA RETREATS front desk for immediate help."

def defaultAnswer : String := "I\x27m here to help with any questions about ILLORA RETREATS."

def promptHeader : String :=
  "You are a knowledgeable, polite, and concise concierge assistant at *ILLORA RETREATS*, a premium hotel known for elegant accommodations, gourmet dining, rejuvenating spa treatments, a fully-equipped gym, pool access, 24x7 room service, meeting spaces, and personalized hospitality.\n\nAnswer strictly using the Hotel Data below. If the data does not contain the answer, say: \x27I don’t have that information in the hotel data yet.\x27\n\n"

def rulesHeader : String := "\n\n📋 **Important Communication Rules:**\n"

/-- `f"{query}"` on the raw Python value (`None` prints as `"None"`). -/
def pyStr : Option String → String
  | none => "None"
  | some s => s

/-- `"\n\n".join(d.page_content for d in docs) if docs else ""`. -/
def hotelData (docs : List Doc) : String :=
  if docs.isEmpty then "" else String.intercalate "\n\n" (docs.map Doc.page_content)

/-- `ConciergeBot._build_prompt(hotel_data, query)`. -/
def ConciergeBot.build_prompt (bot : ConciergeBot) (hotel_data query : String) : String :=
  let rules_text :=
    if bot.dos_donts.isEmpty then ""
    else
      bot.dos_donts.foldl (fun acc entry =>
        let d := pyStrip entry.doField
        let dn := pyStrip entry.dontField
        let acc1 := if d ≠ "" then acc ++ ("- ✅ Do: " ++ d ++ "\n") else acc
        if dn ≠ "" then acc1 ++ ("- ❌ Don\x27t: " ++ dn ++ "\n") else acc1)
        rulesHeader
  promptHeader ++ "Hotel Data:\n" ++ hotel_data ++ "\n\n" ++
    "Guest Query: " ++ query ++ "\n" ++ rules_text

/-- `ConciergeBot.ask(query, user_type)`. -/
def ConciergeBot.ask (bot : ConciergeBot) (query : Option String)
    (user_type : Option String) : String :=
  let lower_query := pyLower (query.getD "")
  if user_type = some "non-guest" ∧
      (restricted_services.any fun term => strContains lower_query term) = true then
    refusalMessage
  else
    match bot.retriever query with
    | .error _ => fallbackMessage
    | .ok docs =>
      let system_prompt := bot.build_prompt (hotelData docs) (pyStr query)
      match bot.llm system_prompt with
      | .error _ => fallbackMessage
      | .ok response =>
        let final_answer :=
          if response.hasContent then pyStrip response.content else response.asStr
        if final_answer = "" then defaultAnswer else final_answer

def dos_donts_path : String := "data/dos_donts.json"

/-- `ConciergeBot._load_dos_donts`: the parsed JSON of
`data/dos_donts.json`, or the empty list when the file is missing or
reading/parsing raises. -/
def _load_dos_donts (fs : FS) : Json :=
  match fs dos_donts_path with
  | none => Json.arr []
  | some content =>
    match loads content with
    | some j => j
    | none => Json.arr []

/-! ## Claim-side vocabulary and bridging lemmas -/

/-- Concatenation of a list of strings (head first). -/
def joinStrings : List String → String
  | [] => ""
  | s :: rest => s ++ joinStrings rest

/-- The lines `_build_prompt` emits for one entry of the policy list:
one `Do:` line when the stripped `do` field is non-empty, then one
`Don\x27t:` line when the stripped `dont` field is non-empty. -/
def entryLines (e : DosDontEntry) : String :=
  (if pyStrip e.doField ≠ "" then "- ✅ Do: " ++ pyStrip e.doField ++ "\n" else "") ++
  (if pyStrip e.dontField ≠ "" then "- ❌ Don\x27t: " ++ pyStrip e.dontField ++ "\n" else "")

/-- The prompt without the rules section: branding header, hotel data
and guest query. -/
def promptCore (hotel_data query : String) : String :=
  promptHeader ++ "Hotel Data:\n" ++ hotel_data ++ "\n\n" ++
    "Guest Query: " ++ query ++ "\n"

theorem str_append_empty (s : String) : s ++ "" = s := by
  cases s with
  | mk l =>
    show String.mk (l ++ []) = String.mk l
    rw [List.append_nil]

/-- One step of the rules loop appends exactly the lines of that entry. -/
theorem dosDontsStep_eq (acc : String) (e : DosDontEntry) :
    (let d := pyStrip e.doField
      let dn := pyStrip e.dontField
      let acc1 := if d ≠ "" then acc ++ ("- ✅ Do: " ++ d ++ "\n") else acc
      if dn ≠ "" then acc1 ++ ("- ❌ Don\x27t: " ++ dn ++ "\n") else acc1) =
    acc ++ entryLines e := by
  simp only [entryLines]
  by_cases hd : pyStrip e.doField = "" <;> by_cases hdn : pyStrip e.dontField = "" <;>
    simp [hd, hdn, str_append_empty, String.append_assoc]

/-- The accumulating rules loop is the concatenation of the per-entry
lines, in list order. -/
theorem dosDontsFold_eq : ∀ (l : List DosDontEntry) (init : String),
    List.foldl (fun acc entry =>
      let d := pyStrip entry.doField
      let dn := pyStrip entry.dontField
      let acc1 := if d ≠ "" then acc ++ ("- ✅ Do: " ++ d ++ "\n") else acc
      if dn ≠ "" then acc1 ++ ("- ❌ Don\x27t: " ++ dn ++ "\n") else acc1) init l =
    init ++ joinStrings (l.map entryLines) := by
  intro l
  induction l with
  | nil => intro init; simp [joinStrings, str_append_empty]
  | cons e l ih =>
    intro init
    simp only [List.foldl_cons, List.map_cons, joinStrings]
    rw [dosDontsStep_eq init e, ih (init ++ entryLines e), String.append_assoc]

/-- The parsing loop of the analytics tab is a filter-then-map. -/
theorem parseLogAux_eq : ∀ (lines : List String) (acc : List LogRow),
    parseLogAux lines acc =
      acc ++ (lines.filter fun l => 8 ≤ (splitParts l).length).map rowOf := by
  intro lines
  induction lines with
  | nil => intro acc; simp [parseLogAux]
  | cons line rest ih =>
    intro acc
    by_cases h : 8 ≤ (splitParts line).length
    · simp only [parseLogAux, if_pos h]
      rw [ih (acc ++ [rowOf line])]
      simp [List.filter_cons, h]
    · simp only [parseLogAux, if_neg h]
      rw [ih acc]
      simp [List.filter_cons, h]

/-! ## Concrete states used by the witnesses -/

/-- The empty file system. -/
def fsE : FS := fun _ => none

/-- A bot whose model replies `"  Hello!  "`. -/
def okBot : ConciergeBot :=
  { retriever := fun _ => Except.ok [⟨"facts"⟩]
    llm := fun _ => Except.ok { hasContent := true, content := "  Hello!  ", asStr := "" }
    dos_donts := [] }

/-- A bot whose retriever raises. -/
def failBot : ConciergeBot :=
  { retriever := fun _ => Except.error "boom"
    llm := fun _ => Except.ok { hasContent := true, content := "x", asStr := "" }
    dos_donts := [] }

/-- A bot with a two-entry policy list. -/
def ruleBot : ConciergeBot :=
  { okBot with dos_donts := [⟨" a ", ""⟩, ⟨"", "b"⟩] }

/-- A bot whose hosted model happens to answer with exactly the
guests-only refusal text. -/
def echoBot : ConciergeBot :=
  { retriever := fun _ => Except.ok []
    llm := fun _ => Except.ok { hasContent := true, content := refusalMessage, asStr := "" }
    dos_donts := [] }

/-! ## The claims -/

/-- C1 (counterexample): the claim says the refusal message is never
returned for a non-"non-guest" user; but when the hosted model itself
answers with the refusal text, `ask` returns it for a guest. -/
theorem c1_counterexample :
    (some "guest" : Option String) ≠ some "non-guest" ∧
    echoBot.ask (some "hello") (some "guest") = refusalMessage :=
  ⟨by decide, rfl⟩

/-- C1 (amended): for a "non-guest" user whose lowercased query contains
a restricted term, `ask` returns the refusal; for every other user type
the access-control branch never produces the refusal: if the refusal is
returned, retrieval and the model call succeeded and the final answer
computed from the model response is itself the refusal text. -/
theorem c1_access_control : ∀ (bot : ConciergeBot) (query user_type : Option String),
    (user_type = some "non-guest" →
      (restricted_services.any fun term => strContains (pyLower (query.getD "")) term) = true →
      bot.ask query user_type = refusalMessage) ∧
    (user_type ≠ some "non-guest" → bot.ask query user_type = refusalMessage →
      ∃ docs response, bot.retriever query = Except.ok docs ∧
        bot.llm (bot.build_prompt (hotelData docs) (pyStr query)) = Except.ok response ∧
        (if response.hasContent then pyStrip response.content else response.asStr) =
          refusalMessage) := by
  intro bot q ut
  constructor
  · intro h1 h2
    simp only [ConciergeBot.ask]
    rw [if_pos ⟨h1, h2⟩]
  · intro h1 h2
    simp only [ConciergeBot.ask] at h2
    rw [if_neg (fun hc => h1 hc.1)] at h2
    cases hr : bot.retriever q with
    | error e =>
      rw [hr] at h2
      simp only [] at h2
      exact absurd h2 (by decide)
    | ok docs =>
      rw [hr] at h2
      simp only [] at h2
      cases hl : bot.llm (bot.build_prompt (hotelData docs) (pyStr q)) with
      | error e =>
        rw [hl] at h2
        simp only [] at h2
        exact absurd h2 (by decide)
      | ok response =>
        rw [hl] at h2
        simp only [] at h2
        by_cases hf : (if response.hasContent then pyStrip response.content
            else response.asStr) = ""
        · rw [if_pos hf] at h2
          exact absurd h2 (by decide)
        · rw [if_neg hf] at h2
          exact ⟨docs, response, rfl, hl, h2⟩

theorem c1_access_control_witness :
    echoBot.ask (some "spa") (some "non-guest") = refusalMessage ∧
    ∃ docs response, echoBot.retriever (some "hello") = Except.ok docs ∧
      echoBot.llm (echoBot.build_prompt (hotelData docs) (pyStr (some "hello"))) =
        Except.ok response ∧
      (if response.hasContent then pyStrip response.content else response.asStr) =
        refusalMessage :=
  ⟨(c1_access_control echoBot (some "spa") (some "non-guest")).1 rfl (by decide),
    (c1_access_control echoBot (some "hello") (some "guest")).2 (by decide) rfl⟩

/-- C2: for every query the guard does not block, `ask` retrieves with
the raw query, joins the page contents with blank lines (`hotelData`),
hands the concatenated prompt (`build_prompt`) to the model in one call,
and returns the model text (stripped). -/
theorem c2_pipeline : ∀ (bot : ConciergeBot) (query user_type : Option String)
    (docs : List Doc) (response : LLMResponse),
    ¬ (user_type = some "non-guest" ∧
      (restricted_services.any fun term => strContains (pyLower (query.getD "")) term) = true) →
    bot.retriever query = Except.ok docs →
    bot.llm (bot.build_prompt (hotelData docs) (pyStr query)) = Except.ok response →
    response.hasContent = true →
    pyStrip response.content ≠ "" →
    bot.ask query user_type = pyStrip response.content := by
  intro bot q ut docs response hblock hr hl hc hne
  simp only [ConciergeBot.ask]
  rw [if_neg hblock, hr]
  simp only []
  rw [hl]
  simp only [hc]
  simp [hne]

theorem c2_pipeline_witness :
    okBot.ask (some "hi") (some "guest") = pyStrip "  Hello!  " :=
  c2_pipeline okBot (some "hi") (some "guest") [⟨"facts"⟩]
    { hasContent := true, content := "  Hello!  ", asStr := "" }
    (by decide) rfl rfl rfl (by decide)

/-- C3: when a step that actually runs raises (retrieval, or the model
call on the prompt built from the retrieved data), `ask` returns the
fixed apology fallback instead of propagating the exception. -/
theorem c3_fallback : ∀ (bot : ConciergeBot) (query user_type : Option String),
    ¬ (user_type = some "non-guest" ∧
      (restricted_services.any fun term => strContains (pyLower (query.getD "")) term) = true) →
    ((∃ e, bot.retriever query = Except.error e) ∨
      (∃ docs e, bot.retriever query = Except.ok docs ∧
        bot.llm (bot.build_prompt (hotelData docs) (pyStr query)) = Except.error e)) →
    bot.ask query user_type = fallbackMessage := by
  intro bot q ut hblock herr
  simp only [ConciergeBot.ask]
  rw [if_neg hblock]
  rcases herr with ⟨e, hr⟩ | ⟨docs, e, hr, hl⟩
  · rw [hr]
  · rw [hr]
    simp only []
    rw [hl]

theorem c3_fallback_witness :
    failBot.ask (some "hi") (some "guest") = fallbackMessage :=
  c3_fallback failBot (some "hi") (some "guest") (by decide) (Or.inl ⟨"boom", rfl⟩)

/-- C4: a non-empty policy list makes `_build_prompt` append the rules
section: the header followed by, in list order, the `Do:` line of each
entry with a non-empty stripped `do` field and the `Don\x27t:` line of
each entry with a non-empty stripped `dont` field; an empty list appends
nothing. -/
theorem c4_rules_injection : ∀ (bot : ConciergeBot) (hotel_data query : String),
    (bot.dos_donts ≠ [] → bot.build_prompt hotel_data query =
      promptCore hotel_data query ++
        (rulesHeader ++ joinStrings (bot.dos_donts.map entryLines))) ∧
    (bot.dos_donts = [] → bot.build_prompt hotel_data query =
      promptCore hotel_data query) := by
  intro bot hd q
  constructor
  · intro h
    have hne : bot.dos_donts.isEmpty = false := by
      cases hx : bot.dos_donts with
      | nil => exact absurd hx h
      | cons a l => rfl
    simp only [ConciergeBot.build_prompt, hne, Bool.false_eq_true, if_false]
    rw [dosDontsFold_eq bot.dos_donts rulesHeader]
    simp [promptCore, String.append_assoc]
  · intro h
    simp only [ConciergeBot.build_prompt, h]
    simp [promptCore, str_append_empty, String.append_assoc]

theorem c4_rules_injection_witness :
    ruleBot.build_prompt "H" "Q" =
      promptCore "H" "Q" ++ (rulesHeader ++ joinStrings (ruleBot.dos_donts.map entryLines)) ∧
    okBot.build_prompt "H" "Q" = promptCore "H" "Q" :=
  ⟨(c4_rules_injection ruleBot "H" "Q").1 (List.cons_ne_nil _ _),
    (c4_rules_injection okBot "H" "Q").2 rfl⟩

/-- C5: both create actions are read-append-write-back: the campaign
form writes the loaded list with exactly the new record appended last
and everything else unchanged, and the Q&A form writes the loaded
DataFrame with exactly the `[question, answer]` row appended last. -/
theorem c5_create_append :
    (∀ (fs : FS) (name desc discount_type : String) (discount_value : Int)
      (start_date end_date : String) (active : Bool) (camp_id created_at : String)
      (fs1 : FS) (l : List Json),
      load_json fs CAMPAIGNS_FILE (Json.arr []) = (fs1, Json.arr l) →
      create_campaign_submit fs name desc discount_type discount_value
          start_date end_date active camp_id created_at =
        some (save_json fs1 CAMPAIGNS_FILE (Json.arr (l ++
          [newCampaign camp_id name desc discount_type discount_value
            start_date end_date active created_at])))) ∧
    (∀ (fs : FS) (q a : String) (fs1 : FS) (df : DataFrame),
      ensure_csv fs QA_CSV ["question", "answer"] = (fs1, df) →
      addqa_submit fs q a =
        setFile fs1 QA_CSV (to_csv { cols := df.cols, rows := df.rows ++ [[q, a]] })) := by
  constructor
  · intro fs name desc dtype dval sd ed active cid cat fs1 l hload
    unfold create_campaign_submit
    rw [hload]
  · intro fs q a fs1 df hcsv
    unfold addqa_submit
    rw [hcsv]

theorem c5_create_append_witness :
    create_campaign_submit fsE "N" "D" "percent" 10 "2026-01-01" "2026-01-02" true
        "id1" "t0" =
      some (save_json (setFile fsE CAMPAIGNS_FILE "[]") CAMPAIGNS_FILE (Json.arr ([] ++
        [newCampaign "id1" "N" "D" "percent" 10 "2026-01-01" "2026-01-02" true "t0"]))) ∧
    addqa_submit fsE "q1" "a1" =
      setFile (setFile fsE QA_CSV "question,answer\n") QA_CSV
        (to_csv { cols := ["question", "answer"], rows := [] ++ [["q1", "a1"]] }) :=
  ⟨c5_create_append.1 fsE "N" "D" "percent" 10 "2026-01-01" "2026-01-02" true "id1" "t0"
      (setFile fsE CAMPAIGNS_FILE "[]") [] rfl,
    c5_create_append.2 fsE "q1" "a1" (setFile fsE QA_CSV "question,answer\n")
      { cols := ["question", "answer"], rows := [] } rfl⟩

/-- C6: the analytics parsing loop keeps exactly the lines whose
stripped split on `"|"` has at least 8 parts, in order, and each kept
line becomes the row of fixed positions 0, 3, 4, 5, 6, 7 with the
regex-extracted intent (`"Unknown"` when the pattern does not match). -/
theorem c6_log_parsing : ∀ lines : List String,
    parseLog lines = (lines.filter fun l => 8 ≤ (splitParts l).length).map rowOf := by
  intro lines
  unfold parseLog
  rw [parseLogAux_eq lines []]
  simp

/-- C7: every loader validates only by existence check with a default:
`load_json` creates the missing file from the default and returns the
default on any parse failure; `ensure_csv` creates an empty CSV with the
given columns and returns the parsed file (the created file parses back
to the empty DataFrame with those columns); `_load_dos_donts` returns
the empty list when its file is missing or unreadable. -/
theorem c7_loaders :
    (∀ (fs : FS) (path : String) (d : Json), fs path = none →
      load_json fs path d = (setFile fs path (dumps d), d)) ∧
    (∀ (fs : FS) (path : String) (d : Json) (c : String), fs path = some c →
      loads c = none → load_json fs path d = (fs, d)) ∧
    (∀ (fs : FS) (path : String) (cols : List String), fs path = none →
      ensure_csv fs path cols =
        (setFile fs path (to_csv { cols := cols, rows := [] }),
          read_csv (to_csv { cols := cols, rows := [] }))) ∧
    read_csv (to_csv { cols := ["question", "answer"], rows := [] }) =
      { cols := ["question", "answer"], rows := [] } ∧
    (∀ fs : FS, fs dos_donts_path = none → _load_dos_donts fs = Json.arr []) ∧
    (∀ (fs : FS) (c : String), fs dos_donts_path = some c → loads c = none →
      _load_dos_donts fs = Json.arr []) := by
  refine ⟨?_, ?_, ?_, rfl, ?_, ?_⟩
  · intro fs path d h
    simp [load_json, h, setFile, loads_dumps]
  · intro fs path d c h hparse
    simp [load_json, h, hparse]
  · intro fs path cols h
    simp [ensure_csv, h, setFile]
  · intro fs h
    simp [_load_dos_donts, h]
  · intro fs c h hparse
    simp [_load_dos_donts, h, hparse]

theorem c7_loaders_witness :
    load_json fsE "data/x.json" (Json.arr []) =
      (setFile fsE "data/x.json" (dumps (Json.arr [])), Json.arr []) ∧
    load_json (setFile fsE "p" "notjson") "p" (Json.num 7) =
      (setFile fsE "p" "notjson", Json.num 7) ∧
    ensure_csv fsE QA_CSV ["question", "answer"] =
      (setFile fsE QA_CSV (to_csv { cols := ["question", "answer"], rows := [] }),
        read_csv (to_csv { cols := ["question", "answer"], rows := [] })) ∧
    _load_dos_donts fsE = Json.arr [] ∧
    _load_dos_donts (setFile fsE dos_donts_path "oops") = Json.arr [] :=
  ⟨c7_loaders.1 fsE "data/x.json" (Json.arr []) rfl,
    c7_loaders.2.1 (setFile fsE "p" "notjson") "p" (Json.num 7) "notjson" rfl rfl,
    c7_loaders.2.2.1 fsE QA_CSV ["question", "answer"] rfl,
    c7_loaders.2.2.2.2.1 fsE rfl,
    c7_loaders.2.2.2.2.2 (setFile fsE dos_donts_path "oops") "oops" rfl rfl⟩

/-- C8: `ask` is total and never returns the empty string, for every
query (including `None`) and user type. -/
theorem c8_total_nonempty : ∀ (bot : ConciergeBot) (query user_type : Option String),
    bot.ask query user_type ≠ "" := by
  intro bot q ut
  simp only [ConciergeBot.ask]
  by_cases hblock : ut = some "non-guest" ∧
      (restricted_services.any fun term => strContains (pyLower (q.getD "")) term) = true
  · rw [if_pos hblock]
    decide
  · rw [if_neg hblock]
    cases hr : bot.retriever q with
    | error e => simp only []; decide
    | ok docs =>
      simp only []
      cases hl : bot.llm (bot.build_prompt (hotelData docs) (pyStr q)) with
      | error e => simp only []; decide
      | ok response =>
        simp only []
        by_cases hf : (if response.hasContent then pyStrip response.content
            else response.asStr) = ""
        · rw [if_pos hf]
          decide
        · rw [if_neg hf]
          exact hf

/-- C9: `save_json` then `load_json` is a round trip: after writing `v`
to `path`, loading `path` returns `v` (and leaves the file system as the
write left it) for every default. -/
theorem c9_save_load_round_trip : ∀ (fs : FS) (path : String) (v d : Json),
    load_json (save_json fs path v) path d = (save_json fs path v, v) := by
  intro fs path v d
  simp [load_json, save_json, setFile, loads_dumps]

/-- C10: the policy form appends the stripped `{do, dont}` entry and
writes the file back exactly when at least one stripped field is
non-empty; with both fields blank it warns (`false`) and leaves the
loaded state untouched. -/
theorem c10_dos_donts_form :
    (∀ (fs : FS) (do_text dont_text : String) (fs1 : FS) (l : List Json),
      load_json fs DOSDONTS_FILE (Json.arr []) = (fs1, Json.arr l) →
      (pyStrip do_text ≠ "" ∨ pyStrip dont_text ≠ "") →
      add_dos_donts_submit fs do_text dont_text =
        some (save_json fs1 DOSDONTS_FILE (Json.arr (l ++
          [Json.obj [("do", Json.str (pyStrip do_text)),
            ("dont", Json.str (pyStrip dont_text))]])), true)) ∧
    (∀ (fs : FS) (do_text dont_text : String) (fs1 : FS) (loaded : Json),
      load_json fs DOSDONTS_FILE (Json.arr []) = (fs1, loaded) →
      pyStrip do_text = "" → pyStrip dont_text = "" →
      add_dos_donts_submit fs do_text dont_text = some (fs1, false)) := by
  constructor
  · intro fs dt dnt fs1 l hload hcond
    unfold add_dos_donts_submit
    rw [hload]
    simp only [if_pos hcond]
  · intro fs dt dnt fs1 loaded hload h1 h2
    unfold add_dos_donts_submit
    rw [hload]
    simp only []
    have : ¬ (pyStrip dt ≠ "" ∨ pyStrip dnt ≠ "") := by
      simp [h1, h2]
    rw [if_neg this]

theorem c10_dos_donts_form_witness :
    add_dos_donts_submit fsE " x " "" =
      some (save_json (setFile fsE DOSDONTS_FILE "[]") DOSDONTS_FILE (Json.arr ([] ++
        [Json.obj [("do", Json.str (pyStrip " x ")),
          ("dont", Json.str (pyStrip ""))]])), true) ∧
    add_dos_donts_submit fsE "  " "" = some (setFile fsE DOSDONTS_FILE "[]", false) :=
  ⟨c10_dos_donts_form.1 fsE " x " "" (setFile fsE DOSDONTS_FILE "[]") [] rfl
      (Or.inl (by decide)),
    c10_dos_donts_form.2 fsE "  " "" (setFile fsE DOSDONTS_FILE "[]") (Json.arr []) rfl
      (by decide) (by decide)⟩

end Illora
